import Mathlib

/-!
Shallow embedding of the crawl engine of `src/app.py`
(class `EnhancedDataCollector` plus the `Statistics` class).

Modelling conventions:
* URLs are modelled as their parsed components (`urlparse` is treated as the
  external URL-parsing collaborator); the crawler only inspects `netloc`
  and `path`.
* The content hash (`hashlib.md5`) is an external collaborator and is passed
  in as an abstract function `md5 : String → String`.
* HTML parsing (BeautifulSoup) is external: the cleaned text extracted from a
  page and the links extracted by `extract_links` are inputs to the model.
* Network I/O is modelled by a list of `NetEvent`s, one per attempted request,
  and sleeping is accounted by a number of seconds accumulated by `fetch`.
* Python `while` loops over the event list become structural recursion;
  machine integers do not occur (all counters are unbounded Python ints).
-/

namespace Crawler

/-- The configuration snapshot consumed by the crawler (`config.json` keys
used by `EnhancedDataCollector`). -/
structure CrawlConfig where
  followExternalLinks : Bool
  allowedDomains : List String
  codeExtensions : List String
  maxConcurrentRequests : Nat
  retryLimit : Nat
  maxPageSizeMB : Nat
  minTextLength : Nat
  minCodeLength : Nat
  removeDuplicates : Bool
  maxUrlsToCrawl : Nat
deriving DecidableEq

/-- A URL, represented by the components `urlparse` yields that the crawler
reads (`netloc` for domain checks, `path` for extension checks). -/
structure Url where
  netloc : String
  path : String
deriving DecidableEq

/-- The five raw counters of the `Statistics` class (`app.py` lines 38-47);
the derived fields of `to_dict` (elapsed time, throughput) are computed on
read from wall-clock time and are not part of the persistent state. -/
structure Statistics where
  pages_crawled : Nat
  pages_failed : Nat
  code_files_collected : Nat
  total_bytes : Nat
  duplicates_skipped : Nat
deriving DecidableEq

/-- Python `str.lower()`, as a character list (the character-wise lowering
of the string). -/
def lowerStr (s : String) : List Char :=
  s.toList.map Char.toLower

/-- Python's substring test `a in b`, executable on character lists: `a` is a
prefix of some suffix of `b`. -/
def hasSubstr (a : List Char) : List Char → Bool
  | [] => a.isEmpty
  | c :: rest => a.isPrefixOf (c :: rest) || hasSubstr a rest

/-- Function `is_allowed_domain` (`app.py` lines 132-143): if external-link following
is disabled return `True`; otherwise test whether some configured allowed
domain occurs as a substring (Python `in`) of the lowercased netloc. -/
def is_allowed_domain (cfg : CrawlConfig) (url : Url) : Bool :=
  if !cfg.followExternalLinks then true
  else cfg.allowedDomains.any fun allowed => hasSubstr allowed.toList (lowerStr url.netloc)

/-- Function `is_code_url` (`app.py` lines 145-151): does the lowercased path end in a
configured code extension (Python `str.endswith`). -/
def is_code_url (cfg : CrawlConfig) (url : Url) : Bool :=
  cfg.codeExtensions.any fun ext => ext.toList.isSuffixOf (lowerStr url.path)

/-- One network outcome for one GET attempt inside `fetch`:
an HTTP response with a status and a body, a timeout, or another
transport-level exception. -/
inductive NetEvent where
  | response (status : Nat) (body : String)
  | timeout
  | netError
deriving DecidableEq

/-- The retry loop of `fetch` (`app.py` lines 200-229).  `events` supplies the
outcome of each successive GET; `retries` and `slept` are the loop counter and
the total seconds passed to `asyncio.sleep` so far.  Returns the fetched body
(`None` on failure or oversized rejection) together with the total seconds
slept.  The size ceiling check `len(content.encode()) / (1024*1024) >
max_page_size_mb` is the exact rational comparison
`bytes > maxPageSizeMB * 1048576`. -/
def fetchGo (cfg : CrawlConfig) : List NetEvent → Nat → Nat → Option String × Nat
  | events, retries, slept =>
    if retries < cfg.retryLimit then
      match events with
      | [] => (none, slept)
      | NetEvent.response status body :: rest =>
        if status = 200 then
          if body.utf8ByteSize > cfg.maxPageSizeMB * 1048576 then (none, slept)
          else (some body, slept)
        else if status = 429 ∨ status = 503 then
          fetchGo cfg rest (retries + 1) (slept + 2 ^ retries)
        else (none, slept)
      | NetEvent.timeout :: rest => fetchGo cfg rest (retries + 1) (slept + 1)
      | NetEvent.netError :: rest => fetchGo cfg rest (retries + 1) (slept + 1)
    else (none, slept)

/-- Function `fetch` (`app.py` lines 194-229) starting from attempt 0 with no time
slept.  The semaphore acquisition surrounding the loop is modelled separately
by `SemStep`. -/
def fetch (cfg : CrawlConfig) (events : List NetEvent) : Option String × Nat :=
  fetchGo cfg events 0 0

/-- A record appended to the JSONL data file.  `timestamp` (wall-clock),
`language` (langdetect collaborator) and the head-metadata fields
(title/description/keywords, produced by the external HTML parser) carry no
crawler logic and are omitted; the fields the crawl engine computes and the
claims refer to are kept. -/
inductive Record where
  | webpage (url : Url) (content : String) (size_bytes : Nat)
  | code (url : Url) (file_extension : String) (code : String) (size_bytes : Nat)
deriving DecidableEq

/-- The content fingerprint of a record: webpage records are fingerprinted by
hashing their cleaned text (`get_content_hash`, `app.py` lines 181-183); code
records are never fingerprinted. -/
def Record.fingerprintWith (md5 : String → String) : Record → Option String
  | Record.webpage _ content _ => some (md5 content)
  | Record.code _ _ _ _ => none

/-- The mutable state of `EnhancedDataCollector` relevant to the crawl engine
(`app.py` lines 83-86, 90) together with `records`, the sequence of records
appended to the on-disk JSONL data file by `save_data`.  `failed_urls` is the
Python dict URL → failure count, kept as an association list with unique
keys. -/
structure CrawlState where
  urls_to_visit : Finset Url
  visited_urls : Finset Url
  failed_urls : List (Url × Nat)
  content_hashes : Finset String
  stats : Statistics
  start_time : Option String
  records : List Record

/-- Python `dict.get(url, 0)`. -/
def getFailCount (m : List (Url × Nat)) (u : Url) : Nat :=
  match m.lookup u with
  | some n => n
  | none => 0

/-- Python `dict[u] = n`: replace the binding if the key is present, else add
it. -/
def dictInsert (m : List (Url × Nat)) (u : Url) (n : Nat) : List (Url × Nat) :=
  match m with
  | [] => [(u, n)]
  | (k, v) :: rest => if k = u then (k, n) :: rest else (k, v) :: dictInsert rest u n

/-- The `Statistics.__init__` counters (all zero). -/
def initStats : Statistics :=
  { pages_crawled := 0, pages_failed := 0, code_files_collected := 0,
    total_bytes := 0, duplicates_skipped := 0 }

/-- The collector state built by `EnhancedDataCollector.__init__`
(`app.py` lines 83-91): pending = seed URLs, everything else empty/zero.
`log` is the pre-existing content of the append-only data file (empty for a
fresh run; preserved across a restart because the file is opened in append
mode). -/
def initState (seeds : Finset Url) (log : List Record) : CrawlState :=
  { urls_to_visit := seeds, visited_urls := ∅, failed_urls := [],
    content_hashes := ∅, stats := initStats, start_time := none, records := log }

/-- The file-name suffix `Path(path).suffix` (external standard library):
the extension of the last path component, including the dot, or `""`. -/
def pathSuffix (p : String) : String :=
  let name := (p.splitOn "/").getLastD ""
  let parts := name.splitOn "."
  if parts.length ≤ 1 then "" else "." ++ parts.getLastD ""

/-- Function `parse_code_content` (`app.py` lines 231-257): reject content shorter than
the configured minimum, else build a code record with the code truncated to
50000 characters and the full byte size recorded. -/
def parse_code_content (cfg : CrawlConfig) (content : String) (url : Url) :
    Option Record :=
  if content.length < cfg.minCodeLength then none
  else some (Record.code url (pathSuffix url.path) (content.take 50000)
    content.utf8ByteSize)

/-- The crawler-owned tail of `parse_content` (`app.py` lines 292-320), after
the external HTML parser has produced the cleaned main text: reject text
shorter than the configured minimum; when duplicate removal is on, reject
(counting `duplicates_skipped`) if the fingerprint is already known, else
remember the fingerprint; otherwise build the webpage record. -/
def parse_content (cfg : CrawlConfig) (md5 : String → String) (s : CrawlState)
    (url : Url) (cleanedText : String) : Option Record × CrawlState :=
  if cleanedText.length < cfg.minTextLength then (none, s)
  else if cfg.removeDuplicates then
    let h := md5 cleanedText
    if h ∈ s.content_hashes then
      (none, { s with stats :=
        { s.stats with duplicates_skipped := s.stats.duplicates_skipped + 1 } })
    else
      (some (Record.webpage url cleanedText cleanedText.utf8ByteSize),
        { s with content_hashes := insert h s.content_hashes })
  else
    (some (Record.webpage url cleanedText cleanedText.utf8ByteSize), s)

/-- Function `save_data` (`app.py` lines 326-340): append the record to the data file,
add its size to `total_bytes`, and count code files. -/
def save_data (s : CrawlState) (r : Record) : CrawlState :=
  match r with
  | Record.webpage _ _ n =>
    { s with
      records := s.records ++ [r]
      stats := { s.stats with total_bytes := s.stats.total_bytes + n } }
  | Record.code _ _ _ n =>
    { s with
      records := s.records ++ [r]
      stats := { s.stats with
        total_bytes := s.stats.total_bytes + n
        code_files_collected := s.stats.code_files_collected + 1 } }

/-- The failure bookkeeping of `process_url` (`app.py` lines 411-414):
increment the global `pages_failed` counter and the per-URL failure count. -/
def record_failure (s : CrawlState) (url : Url) : CrawlState :=
  { s with
    stats := { s.stats with pages_failed := s.stats.pages_failed + 1 },
    failed_urls := dictInsert s.failed_urls url (getFailCount s.failed_urls url + 1) }

/-- The `pages_crawled` increment of `process_url` line 434. -/
def bump_crawled (s : CrawlState) : CrawlState :=
  { s with stats := { s.stats with pages_crawled := s.stats.pages_crawled + 1 } }

/-- The link-admission loop of `process_url` (`app.py` lines 427-429): each
discovered link is added to the pending set only if it is not already visited
and the pending set currently holds fewer than `max_urls_to_crawl` URLs (the
length test is re-evaluated on every iteration). -/
def add_new_links (cfg : CrawlConfig) (visited : Finset Url) :
    Finset Url → List Url → Finset Url
  | pending, [] => pending
  | pending, l :: rest =>
    if l ∉ visited ∧ pending.card < cfg.maxUrlsToCrawl then
      add_new_links cfg visited (insert l pending) rest
    else
      add_new_links cfg visited pending rest

/-- The post-fetch part of `process_url` (`app.py` lines 410-435).
`fetched` is the value returned by `fetch`; Python's `if not content`
treats both `None` and the empty string as failure.  `cleanedText` is the
text the external HTML stage extracts from the body, `links` the output of
`extract_links`. -/
def handle_fetched (cfg : CrawlConfig) (md5 : String → String) (s : CrawlState)
    (url : Url) (fetched : Option String) (cleanedText : String)
    (links : List Url) : CrawlState :=
  match fetched with
  | none => record_failure s url
  | some content =>
    if content = "" then record_failure s url
    else if is_code_url cfg url then
      match parse_code_content cfg content url with
      | none => s
      | some r => bump_crawled (save_data s r)
    else
      let pr := parse_content cfg md5 s url cleanedText
      let s3 :=
        if pr.1.isSome && cfg.followExternalLinks then
          { pr.2 with urls_to_visit :=
            add_new_links cfg pr.2.visited_urls pr.2.urls_to_visit links }
        else pr.2
      match pr.1 with
      | none => s3
      | some r => bump_crawled (save_data s3 r)

/-- Function `process_url` (`app.py` lines 393-435): skip an already-visited URL, mark
the URL visited, then dispatch on the fetch result. -/
def process_url (cfg : CrawlConfig) (md5 : String → String) (s : CrawlState)
    (url : Url) (fetched : Option String) (cleanedText : String)
    (links : List Url) : CrawlState :=
  if url ∈ s.visited_urls then s
  else
    handle_fetched cfg md5 { s with visited_urls := insert url s.visited_urls }
      url fetched cleanedText links

/-- The JSON document `save_checkpoint` writes (`app.py` lines 345-352):
visited/pending URL lists, the per-URL failure counts, the statistics
counters (the derived fields of `to_dict` are functions of wall-clock time
and are recomputed on read, not state), and the run start time.  Note that
`content_hashes` is not part of the document. -/
structure Checkpoint where
  visited_urls : List Url
  urls_to_visit : List Url
  failed_urls : List (Url × Nat)
  statistics : Statistics
  start_time : Option String

/-- A total order on URLs (lexicographic on the components), used only to
give `list(set)` a concrete, executable enumeration order; Python's `set`
enumeration order is arbitrary and nothing below depends on the choice. -/
instance : LinearOrder Url :=
  LinearOrder.lift' (fun u => toLex (u.netloc, u.path)) fun a b h => by
    cases a
    cases b
    have h2 := toLex.injective h
    simp only [Prod.mk.injEq] at h2
    simp [h2.1, h2.2]

/-- Python `list(set)`: one concrete enumeration of a finite URL set. -/
def urlList (s : Finset Url) : List Url :=
  s.sort (· ≤ ·)

/-- Function `save_checkpoint` (`app.py` lines 342-359): serialize the current state. -/
def save_checkpoint (s : CrawlState) : Checkpoint :=
  { visited_urls := urlList s.visited_urls
    urls_to_visit := urlList s.urls_to_visit
    failed_urls := s.failed_urls
    statistics := s.stats
    start_time := s.start_time }

/-- Function `load_checkpoint` (`app.py` lines 361-391): overwrite the visited and
pending sets (`set(list)`), the failure counts and the five statistics
counters from the checkpoint; restore `start_time` only when it is present.
All other collector state — in particular `content_hashes` — is left as the
constructor built it. -/
def load_checkpoint (s : CrawlState) (cp : Checkpoint) : CrawlState :=
  { s with
    visited_urls := cp.visited_urls.toFinset
    urls_to_visit := cp.urls_to_visit.toFinset
    failed_urls := cp.failed_urls
    stats := cp.statistics
    start_time := match cp.start_time with
      | some t => some t
      | none => s.start_time }

/-- One atomic (synchronous, no `await` inside) section of the crawl loop, as
the single-threaded asyncio event loop interleaves them.

* `dequeue`: the scheduler pops a URL from the pending set (`run`, line 515)
  and the task prologue marks it visited (`process_url` lines 395-398).  The
  two are not separated by any frontier mutation: between the synchronous pop
  loop and the start of the batch tasks only the checkpoint/stats tasks can
  run (the previous batch was fully awaited), and every batch task executes
  its visited-mark before its first `await`, while link discovery only
  happens after the fetch `await` — so no link admission can be interposed.
* `handle`: the post-fetch section of `process_url` (lines 410-435).  The
  duplicate check, fingerprint insertion and link admission are one
  synchronous section in the source; the record append (`save_data`) is
  modelled in the same step — by then the fingerprint is already in the set,
  so no interleaving can admit the same fingerprint in between. -/
inductive Step (cfg : CrawlConfig) (md5 : String → String) :
    CrawlState → CrawlState → Prop
  | dequeue (s : CrawlState) (u : Url) (hu : u ∈ s.urls_to_visit) :
    Step cfg md5 s
      { s with
        urls_to_visit := s.urls_to_visit.erase u
        visited_urls := insert u s.visited_urls }
  | handle (s : CrawlState) (u : Url) (hu : u ∈ s.visited_urls)
      (fetched : Option String) (cleanedText : String) (links : List Url) :
    Step cfg md5 s (handle_fetched cfg md5 s u fetched cleanedText links)

/-- States reachable during a single (non-resumed) run started from the
seed URLs with an empty data file. -/
inductive Reachable (cfg : CrawlConfig) (md5 : String → String)
    (seeds : Finset Url) : CrawlState → Prop
  | init : Reachable cfg md5 seeds (initState seeds [])
  | step (s s' : CrawlState) (h : Reachable cfg md5 seeds s)
      (hs : Step cfg md5 s s') : Reachable cfg md5 seeds s'

/-- The list of webpage fingerprints of the records written to the data
file, in write order. -/
def webpageFingerprints (md5 : String → String) (s : CrawlState) : List String :=
  s.records.filterMap (Record.fingerprintWith md5)

/-!
Semaphore model.  `__init__` line 94 creates
`asyncio.Semaphore(max_concurrent_requests)`; `fetch` line 196 holds it
(`async with`) around the whole retry loop, so every `session.get` is issued
while holding a slot.  A state counts tasks holding a slot but not currently
in a request (`holding`) and tasks with an in-flight request (`in_flight`);
both hold the semaphore, so acquisition (which blocks while no slot is free)
is enabled only when `holding + in_flight < capacity`.  Any number of further
tasks may be blocked waiting — they contribute nothing to either counter.
-/

/-- Semaphore occupancy: slot holders not in a request, and holders with an
in-flight HTTP request. -/
structure SemState where
  holding : Nat
  in_flight : Nat
deriving DecidableEq

/-- Transitions of the limiter: acquire a free slot, issue the GET while
holding, complete the GET, release the slot. -/
inductive SemStep (cap : Nat) : SemState → SemState → Prop
  | acquire (s : SemState) (h : s.holding + s.in_flight < cap) :
    SemStep cap s { holding := s.holding + 1, in_flight := s.in_flight }
  | issue (s : SemState) (h : 0 < s.holding) :
    SemStep cap s { holding := s.holding - 1, in_flight := s.in_flight + 1 }
  | complete (s : SemState) (h : 0 < s.in_flight) :
    SemStep cap s { holding := s.holding + 1, in_flight := s.in_flight - 1 }
  | release (s : SemState) (h : 0 < s.holding) :
    SemStep cap s { holding := s.holding - 1, in_flight := s.in_flight }

/-- Limiter states reachable from the idle state (no slot taken). -/
inductive SemReachable (cap : Nat) : SemState → Prop
  | init : SemReachable cap { holding := 0, in_flight := 0 }
  | step (s s' : SemState) (h : SemReachable cap s) (hs : SemStep cap s s') :
    SemReachable cap s'

/-!
File-system model for the checkpoint write.  `save_checkpoint` line 354 opens
the checkpoint file with mode `'w'` — which truncates it in place — and then
writes the serialized document (line 355).  The contents an external reader
can observe are the scan of these operations over the previous contents.
-/

/-- File operations performed on the checkpoint file by `save_checkpoint`. -/
inductive FsOp where
  | openTruncate
  | writeAll (text : String)
deriving DecidableEq

/-- Effect of one file operation on the file's contents. -/
def applyFsOp : String → FsOp → String
  | _, FsOp.openTruncate => ""
  | cur, FsOp.writeAll t => cur ++ t

/-- The operation sequence of `save_checkpoint` lines 354-355: open with
mode `'w'` (truncate), then write the serialized state. -/
def save_checkpoint_ops (serialized : String) : List FsOp :=
  [FsOp.openTruncate, FsOp.writeAll serialized]

/-- Every file content observable by a concurrent reader while the operation
sequence runs, starting from the previous contents. -/
def observable_contents (old : String) (ops : List FsOp) : List String :=
  ops.scanl applyFsOp old

/-- An overwrite is atomic for readers when every observable content is
either the previous contents or the final contents. -/
def AtomicOverwrite (old : String) (ops : List FsOp) : Prop :=
  ∀ c ∈ observable_contents old ops, c = old ∨ c = ops.foldl applyFsOp old

/-! Concrete configurations and URLs used by witnesses and counterexamples. -/

/-- A small configuration with a zero page-size ceiling (any nonempty body is
oversized). -/
def cfgTiny : CrawlConfig :=
  { followExternalLinks := false, allowedDomains := [], codeExtensions := []
    maxConcurrentRequests := 2, retryLimit := 3, maxPageSizeMB := 0
    minTextLength := 1, minCodeLength := 1, removeDuplicates := true
    maxUrlsToCrawl := 10 }

/-- A configuration with duplicate removal on and a crawl ceiling of 1. -/
def cfgCeilOne : CrawlConfig :=
  { followExternalLinks := true, allowedDomains := [], codeExtensions := []
    maxConcurrentRequests := 2, retryLimit := 3, maxPageSizeMB := 1
    minTextLength := 1, minCodeLength := 1, removeDuplicates := true
    maxUrlsToCrawl := 1 }

/-- A configuration following external links restricted to `example.com`. -/
def cfgDomains : CrawlConfig :=
  { followExternalLinks := true, allowedDomains := ["example.com"]
    codeExtensions := [], maxConcurrentRequests := 2, retryLimit := 4
    maxPageSizeMB := 1, minTextLength := 1, minCodeLength := 1
    removeDuplicates := true, maxUrlsToCrawl := 10 }

/-- A configuration with duplicate removal on and room in the frontier. -/
def cfgDedup : CrawlConfig :=
  { followExternalLinks := false, allowedDomains := [], codeExtensions := []
    maxConcurrentRequests := 1, retryLimit := 1, maxPageSizeMB := 1
    minTextLength := 1, minCodeLength := 1, removeDuplicates := true
    maxUrlsToCrawl := 10 }

def urlA : Url := { netloc := "example.com", path := "/a" }

def urlB : Url := { netloc := "example.com", path := "/b" }

/-! Helper lemmas about the fetch retry loop. -/

/-- A 429/503 response consumes one attempt, sleeping `2 ^ attempt` seconds. -/
lemma fetchGo_rateLimited (cfg : CrawlConfig) (events : List NetEvent)
    (retries slept status : Nat) (body : String)
    (h1 : retries < cfg.retryLimit) (h2 : status = 429 ∨ status = 503) :
    fetchGo cfg (NetEvent.response status body :: events) retries slept =
      fetchGo cfg events (retries + 1) (slept + 2 ^ retries) := by
  have hne : ¬ status = 200 := by rcases h2 with h | h <;> simp [h]
  rw [fetchGo]
  simp [h1, hne, h2]

/-- A 200 response whose body fits under the ceiling returns the body with no
further sleeping. -/
lemma fetchGo_ok (cfg : CrawlConfig) (events : List NetEvent)
    (retries slept : Nat) (body : String) (h1 : retries < cfg.retryLimit)
    (h2 : body.utf8ByteSize ≤ cfg.maxPageSizeMB * 1048576) :
    fetchGo cfg (NetEvent.response 200 body :: events) retries slept =
      (some body, slept) := by
  rw [fetchGo]
  simp [h1, Nat.not_lt.mpr h2]

/-- A 200 response whose body exceeds the ceiling is rejected immediately:
no retry, no further sleeping, the remaining events are never consumed. -/
lemma fetchGo_oversized (cfg : CrawlConfig) (events : List NetEvent)
    (retries slept : Nat) (body : String) (h1 : retries < cfg.retryLimit)
    (h2 : body.utf8ByteSize > cfg.maxPageSizeMB * 1048576) :
    fetchGo cfg (NetEvent.response 200 body :: events) retries slept =
      (none, slept) := by
  rw [fetchGo]
  simp [h1, h2]

/-- Claim C5: on a 429 or 503 at attempt `n` (counting from 0) the fetcher
sleeps `2 ^ n` seconds and retries, while attempts remain under the retry
limit; in particular three consecutive 429 responses followed by an
under-ceiling 200, with retry limit at least 4, return the body after a total
backoff of 1 + 2 + 4 = 7 seconds. -/
theorem c5_exponential_backoff :
    (∀ (cfg : CrawlConfig) (events : List NetEvent) (retries slept status : Nat)
      (body : String), retries < cfg.retryLimit → (status = 429 ∨ status = 503) →
      fetchGo cfg (NetEvent.response status body :: events) retries slept =
        fetchGo cfg events (retries + 1) (slept + 2 ^ retries)) ∧
    (∀ (cfg : CrawlConfig) (body : String), 4 ≤ cfg.retryLimit →
      body.utf8ByteSize ≤ cfg.maxPageSizeMB * 1048576 →
      fetch cfg [NetEvent.response 429 "", NetEvent.response 429 "",
        NetEvent.response 429 "", NetEvent.response 200 body] = (some body, 7)) := by
  refine ⟨fetchGo_rateLimited, ?_⟩
  intro cfg body h1 h2
  rw [fetch]
  rw [fetchGo_rateLimited cfg _ 0 0 429 "" (by omega) (Or.inl rfl)]
  rw [fetchGo_rateLimited cfg _ 1 _ 429 "" (by omega) (Or.inl rfl)]
  rw [fetchGo_rateLimited cfg _ 2 _ 429 "" (by omega) (Or.inl rfl)]
  rw [fetchGo_ok cfg _ 3 _ body (by omega) h2]
  norm_num

/-- Claim C5 witness: the backoff equations instantiated at a concrete
configuration (retry limit 3 with headroom, ceiling 0 irrelevant here) and at
a concrete four-response trace under `cfgDomains` (retry limit 4). -/
theorem c5_witness :
    fetchGo cfgTiny [NetEvent.response 503 "x"] 0 5 =
      fetchGo cfgTiny [] (0 + 1) (5 + 2 ^ 0) ∧
    fetch cfgDomains [NetEvent.response 429 "", NetEvent.response 429 "",
      NetEvent.response 429 "", NetEvent.response 200 "ok"] = (some "ok", 7) :=
  ⟨c5_exponential_backoff.1 cfgTiny [] 0 5 503 "x" (by decide) (Or.inr rfl),
   c5_exponential_backoff.2 cfgDomains "ok" (by decide) (by decide)⟩

/-- Claim C1 counterexample: a status-200 response whose body exceeds the
ceiling (`cfgTiny` has a 0 MB ceiling, so the one-byte body "x" is oversized)
makes `fetch` return `None` without retrying; `process_url` then takes the
`if not content` branch and increments `pages_failed` to 1 — the claim states
the failure counter is not incremented. -/
theorem c1_oversized_counterexample :
    fetch cfgTiny [NetEvent.response 200 "x"] = (none, 0) ∧
    (process_url cfgTiny id (initState {urlA} []) urlA
      (fetch cfgTiny [NetEvent.response 200 "x"]).1 "" []).stats.pages_failed = 1 := by
  constructor
  · rfl
  · rfl

/-- Claim C1 (amended): on a status-200 response with an oversized body the
fetch yields `None` with no retry (no backoff slept, later events untouched)
and no record is produced, but the caller cannot distinguish this rejection
from a failure, so `pages_failed` IS incremented. -/
theorem c1_oversized_amended (cfg : CrawlConfig) (md5 : String → String)
    (s : CrawlState) (u : Url) (body : String) (rest : List NetEvent)
    (cleanedText : String) (links : List Url)
    (hretry : 0 < cfg.retryLimit)
    (hsize : body.utf8ByteSize > cfg.maxPageSizeMB * 1048576)
    (hu : u ∉ s.visited_urls) :
    fetch cfg (NetEvent.response 200 body :: rest) = (none, 0) ∧
    (process_url cfg md5 s u none cleanedText links).records = s.records ∧
    (process_url cfg md5 s u none cleanedText links).stats.pages_failed =
      s.stats.pages_failed + 1 := by
  refine ⟨fetchGo_oversized cfg rest 0 0 body hretry hsize, ?_, ?_⟩ <;>
    simp [process_url, hu, handle_fetched, record_failure]

/-- Claim C1 (amended) witness: the amended statement at the concrete
oversized scenario of the counterexample. -/
theorem c1_oversized_amended_witness :
    fetch cfgTiny [NetEvent.response 200 "x"] = (none, 0) ∧
    (process_url cfgTiny id (initState {urlA} []) urlA none "" []).records =
      (initState {urlA} []).records ∧
    (process_url cfgTiny id (initState {urlA} []) urlA none "" []).stats.pages_failed =
      (initState {urlA} []).stats.pages_failed + 1 :=
  c1_oversized_amended cfgTiny id (initState {urlA} []) urlA "x" [] "" []
    (by decide) (by decide) (by decide)

/-- The boolean prefix test on character lists agrees with the prefix
relation. -/
lemma isPrefixOf_eq_true_iff (a b : List Char) :
    a.isPrefixOf b = true ↔ a <+: b := by
  induction a generalizing b with
  | nil => simp [List.isPrefixOf]
  | cons x xs ih =>
    cases b with
    | nil => simp [List.isPrefixOf]
    | cons y ys => simp [List.isPrefixOf, List.cons_prefix_cons, ih]

/-- The boolean substring test agrees with the mathematical infix relation
on character lists. -/
lemma hasSubstr_iff (a b : List Char) : hasSubstr a b = true ↔ a <:+: b := by
  induction b with
  | nil => simp [hasSubstr, List.infix_nil]
  | cons c rest ih =>
    rw [hasSubstr]
    simp [List.infix_cons_iff, isPrefixOf_eq_true_iff, ih]

/-- Claim C9: when `follow_external_links` is disabled `is_allowed_domain`
accepts every URL; when enabled it accepts exactly the URLs some configured
allowed domain occurs in as a substring of the lowercased netloc. -/
theorem c9_is_allowed_domain_spec (cfg : CrawlConfig) (url : Url) :
    (cfg.followExternalLinks = false → is_allowed_domain cfg url = true) ∧
    (cfg.followExternalLinks = true →
      (is_allowed_domain cfg url = true ↔
        ∃ d ∈ cfg.allowedDomains, d.toList <:+: lowerStr url.netloc)) := by
  constructor
  · intro h
    simp [is_allowed_domain, h]
  · intro h
    simp [is_allowed_domain, h, List.any_eq_true, hasSubstr_iff]

/-- Claim C9 witness: under `cfgDomains` (allowed domain `example.com`) the
unrelated host `Example.COM.evil.net` passes the filter, because
`example.com` occurs as a substring of its lowercased netloc. -/
theorem c9_witness :
    is_allowed_domain cfgDomains { netloc := "Example.COM.evil.net", path := "/" } = true :=
  ((c9_is_allowed_domain_spec cfgDomains
      { netloc := "Example.COM.evil.net", path := "/" }).2 rfl).mpr
    ⟨"example.com", by decide, (hasSubstr_iff _ _).mp (by decide)⟩

/-- Claim C6: loading the checkpoint produced by saving a state reproduces
the same visited set, pending set, per-URL failure counts and statistics
counters, whatever state the loading collector started from. -/
theorem c6_checkpoint_roundtrip (base s : CrawlState) :
    (load_checkpoint base (save_checkpoint s)).visited_urls = s.visited_urls ∧
    (load_checkpoint base (save_checkpoint s)).urls_to_visit = s.urls_to_visit ∧
    (load_checkpoint base (save_checkpoint s)).failed_urls = s.failed_urls ∧
    (load_checkpoint base (save_checkpoint s)).stats = s.stats := by
  refine ⟨?_, ?_, rfl, rfl⟩ <;>
    simp [load_checkpoint, save_checkpoint, urlList, Finset.sort_toFinset]

/-- Claim C7 counterexample: the checkpoint overwrite is not atomic for
readers.  Starting from previous contents "A" and writing "B", the operation
sequence of `save_checkpoint` (open with mode `'w'`, then write) exposes the
truncated empty file, which is neither the old nor the new contents. -/
theorem c7_counterexample : ¬ AtomicOverwrite "A" (save_checkpoint_ops "B") := by
  intro h
  rcases h "" (by decide) with h1 | h1 <;> exact absurd h1 (by decide)

/-- Claim C7 (amended): `save_checkpoint` rewrites the checkpoint file in
place — it opens the file in truncating write mode and then writes the new
document.  The final contents are the new document, but the overwrite is not
atomic: a concurrent reader can observe the truncated (empty) intermediate
state whenever the old and new contents are nonempty. -/
theorem c7_not_atomic (old serialized : String)
    (hold : old ≠ "") (hnew : serialized ≠ "") :
    (save_checkpoint_ops serialized).foldl applyFsOp old = serialized ∧
    "" ∈ observable_contents old (save_checkpoint_ops serialized) ∧
    ¬ AtomicOverwrite old (save_checkpoint_ops serialized) := by
  have hfold : (save_checkpoint_ops serialized).foldl applyFsOp old = serialized := by
    show ("" ++ serialized : String) = serialized
    simp
  have hmem : "" ∈ observable_contents old (save_checkpoint_ops serialized) := by
    simp [observable_contents, save_checkpoint_ops, List.scanl, applyFsOp]
  refine ⟨hfold, hmem, fun h => ?_⟩
  rcases h "" hmem with h1 | h1
  · exact hold h1.symm
  · rw [hfold] at h1
    exact hnew h1.symm

/-- Claim C7 (amended) witness: the non-atomicity at concrete contents
"A" and "B". -/
theorem c7_not_atomic_witness :
    (save_checkpoint_ops "B").foldl applyFsOp "A" = "B" ∧
    "" ∈ observable_contents "A" (save_checkpoint_ops "B") ∧
    ¬ AtomicOverwrite "A" (save_checkpoint_ops "B") :=
  c7_not_atomic "A" "B" (by decide) (by decide)

/-- In every reachable limiter state the total semaphore occupancy is at most
the capacity. -/
lemma semReachable_occupancy (cap : Nat) (s : SemState)
    (h : SemReachable cap s) : s.holding + s.in_flight ≤ cap := by
  induction h with
  | init => simp
  | step s s' _ hs ih => cases hs <;> simp_all <;> omega

/-- Claim C8: in every reachable state of the global limiter created with
capacity `max_concurrent_requests`, the number of simultaneously in-flight
HTTP requests is at most that capacity — every request is issued while
holding a slot, so surplus batch tasks block in `acquire`. -/
theorem c8_concurrency_bound (cfg : CrawlConfig) (s : SemState)
    (h : SemReachable cfg.maxConcurrentRequests s) :
    s.in_flight ≤ cfg.maxConcurrentRequests := by
  have := semReachable_occupancy cfg.maxConcurrentRequests s h
  omega

/-- Claim C8 witness: with capacity 2 (`cfgTiny`), the state reached by
acquiring a slot and issuing the request has one in-flight request, within
the bound. -/
theorem c8_concurrency_bound_witness :
    ({ holding := 0, in_flight := 1 } : SemState).in_flight ≤
      cfgTiny.maxConcurrentRequests :=
  c8_concurrency_bound cfgTiny { holding := 0, in_flight := 1 }
    (SemReachable.step _ _
      (SemReachable.step _ _ SemReachable.init (SemStep.acquire _ (by decide)))
      (SemStep.issue _ (by decide)))

/-- A URL in the result of the link-admission loop was either already
pending, or is a discovered link that was not visited and was admitted while
the pending set was still below the crawl ceiling (so in particular the
pending set at entry was below the ceiling). -/
lemma mem_add_new_links (cfg : CrawlConfig) (visited : Finset Url)
    (links : List Url) : ∀ (pending : Finset Url) (l : Url),
    l ∈ add_new_links cfg visited pending links →
    l ∈ pending ∨ (l ∈ links ∧ l ∉ visited ∧ pending.card < cfg.maxUrlsToCrawl) := by
  induction links with
  | nil =>
    intro pending l h
    rw [add_new_links] at h
    exact Or.inl h
  | cons a rest ih =>
    intro pending l h
    rw [add_new_links] at h
    by_cases hc : a ∉ visited ∧ pending.card < cfg.maxUrlsToCrawl
    · rw [if_pos hc] at h
      rcases ih (insert a pending) l h with h1 | h2
      · rcases Finset.mem_insert.mp h1 with rfl | hp
        · exact Or.inr ⟨List.mem_cons_self _ _, hc.1, hc.2⟩
        · exact Or.inl hp
      · refine Or.inr ⟨List.mem_cons_of_mem _ h2.1, h2.2.1, ?_⟩
        have hle := Finset.card_le_card (Finset.subset_insert a pending)
        omega
    · rw [if_neg hc] at h
      rcases ih pending l h with h1 | h2
      · exact Or.inl h1
      · exact Or.inr ⟨List.mem_cons_of_mem _ h2.1, h2.2.1, h2.2.2⟩

/-- Claim C3 counterexample: the admission guard compares only the pending
set's size against the ceiling, not visited-plus-pending.  With ceiling 1
(`cfgCeilOne`), one visited URL and an empty pending set, the discovered link
is admitted even though visited + pending = 1 has already reached the
ceiling. -/
theorem c3_counterexample :
    urlB ∈ add_new_links cfgCeilOne {urlA} ∅ [urlB] ∧
    ¬ (({urlA} : Finset Url).card + (∅ : Finset Url).card <
      cfgCeilOne.maxUrlsToCrawl) := by
  constructor
  · decide
  · decide

/-- Claim C3 (amended): a newly discovered link is added to the pending set
only if it is not already visited and the pending set alone (not
visited-plus-pending) has not reached the configured crawl ceiling. -/
theorem c3_link_admission_guard (cfg : CrawlConfig) (visited pending : Finset Url)
    (links : List Url) (l : Url) (h : l ∈ add_new_links cfg visited pending links) :
    l ∈ pending ∨ (l ∈ links ∧ l ∉ visited ∧ pending.card < cfg.maxUrlsToCrawl) :=
  mem_add_new_links cfg visited links pending l h

/-- Claim C3 (amended) witness: the guard instantiated at the concrete
admission of the counterexample scenario. -/
theorem c3_link_admission_guard_witness :
    urlB ∈ (∅ : Finset Url) ∨ (urlB ∈ [urlB] ∧ urlB ∉ ({urlA} : Finset Url) ∧
      (∅ : Finset Url).card < cfgCeilOne.maxUrlsToCrawl) :=
  c3_link_admission_guard cfgCeilOne {urlA} ∅ [urlB] urlB (by decide)

/-- Case analysis of the post-fetch section of `process_url`: either nothing
observable changes (failure or rejection), or a code record is appended, or a
webpage record is appended with its fingerprint recorded and links possibly
admitted. -/
lemma handle_fetched_shape (cfg : CrawlConfig) (md5 : String → String)
    (s : CrawlState) (u : Url) (fetched : Option String) (t : String)
    (links : List Url) (s' : CrawlState)
    (hs' : s' = handle_fetched cfg md5 s u fetched t links) :
    (s'.records = s.records ∧ s'.content_hashes = s.content_hashes ∧
      s'.visited_urls = s.visited_urls ∧ s'.urls_to_visit = s.urls_to_visit) ∨
    (∃ ext c n, s'.records = s.records ++ [Record.code u ext c n] ∧
      s'.content_hashes = s.content_hashes ∧
      s'.visited_urls = s.visited_urls ∧ s'.urls_to_visit = s.urls_to_visit) ∨
    (s'.records = s.records ++ [Record.webpage u t t.utf8ByteSize] ∧
      (cfg.removeDuplicates = true → md5 t ∉ s.content_hashes ∧
        s'.content_hashes = insert (md5 t) s.content_hashes) ∧
      (cfg.removeDuplicates = false → s'.content_hashes = s.content_hashes) ∧
      s'.visited_urls = s.visited_urls ∧ is_code_url cfg u = false ∧
      (parse_content cfg md5 s u t).1.isSome = true ∧
      (s'.urls_to_visit = s.urls_to_visit ∨ (cfg.followExternalLinks = true ∧
        s'.urls_to_visit = add_new_links cfg s.visited_urls s.urls_to_visit links))) := by
  subst hs'
  cases fetched with
  | none => exact Or.inl ⟨rfl, rfl, rfl, rfl⟩
  | some content =>
    rw [handle_fetched]
    by_cases hc : content = ""
    · rw [if_pos hc]
      exact Or.inl ⟨rfl, rfl, rfl, rfl⟩
    · rw [if_neg hc]
      cases hcode : is_code_url cfg u with
      | true =>
        rw [if_pos rfl]
        cases hpc : parse_code_content cfg content u with
        | none => exact Or.inl ⟨rfl, rfl, rfl, rfl⟩
        | some r =>
          refine Or.inr (Or.inl ?_)
          rw [parse_code_content] at hpc
          by_cases hlen : content.length < cfg.minCodeLength
          · rw [if_pos hlen] at hpc
            cases hpc
          · rw [if_neg hlen] at hpc
            obtain rfl : Record.code u (pathSuffix u.path) (content.take 50000)
                content.utf8ByteSize = r := by injection hpc
            exact ⟨_, _, _, rfl, rfl, rfl, rfl⟩
      | false =>
        rw [if_neg (by decide : ¬ (false = true))]
        simp only []
        by_cases hlen : t.length < cfg.minTextLength
        · simp only [parse_content, if_pos hlen, Option.isSome_none, Bool.false_and,
            if_neg (Bool.false_ne_true)]
          exact Or.inl ⟨by trivial, by trivial, by trivial, by trivial⟩
        · by_cases hdup : cfg.removeDuplicates = true
          · by_cases hmem : md5 t ∈ s.content_hashes
            · simp only [parse_content, if_neg hlen, if_pos hdup, if_pos hmem,
                Option.isSome_none, Bool.false_and, if_neg (Bool.false_ne_true)]
              exact Or.inl ⟨by trivial, by trivial, by trivial, by trivial⟩
            · simp only [parse_content, if_neg hlen, if_pos hdup, if_neg hmem,
                Option.isSome_some, Bool.true_and]
              cases hfol : cfg.followExternalLinks with
              | true =>
                rw [if_pos rfl]
                refine Or.inr (Or.inr ⟨by trivial, fun _ => ⟨hmem, by trivial⟩, ?_,
                  by trivial, by trivial, by trivial, Or.inr ⟨by trivial, by trivial⟩⟩)
                intro hf
                rw [hdup] at hf
                exact absurd hf (by decide)
              | false =>
                rw [if_neg (by decide : ¬ (false = true))]
                refine Or.inr (Or.inr ⟨by trivial, fun _ => ⟨hmem, by trivial⟩, ?_,
                  by trivial, by trivial, by trivial, Or.inl (by trivial)⟩)
                intro hf
                rw [hdup] at hf
                exact absurd hf (by decide)
          · have hdup' : cfg.removeDuplicates = false := by
              cases hd : cfg.removeDuplicates
              · rfl
              · exact absurd hd hdup
            simp only [parse_content, if_neg hlen, if_neg (by simp [hdup'] :
              ¬ cfg.removeDuplicates = true), Option.isSome_some, Bool.true_and]
            cases hfol : cfg.followExternalLinks with
            | true =>
              rw [if_pos rfl]
              exact Or.inr (Or.inr ⟨by trivial, fun hd => absurd hd hdup,
                fun _ => by trivial, by trivial, by trivial, by trivial,
                Or.inr ⟨by trivial, by trivial⟩⟩)
            | false =>
              rw [if_neg (by decide : ¬ (false = true))]
              exact Or.inr (Or.inr ⟨by trivial, fun hd => absurd hd hdup,
                fun _ => by trivial, by trivial, by trivial, by trivial,
                Or.inl (by trivial)⟩)

/-- Claim C10: the pending frontier is extended by `process_url` only when
the URL was routed to the webpage path (not a code URL), `parse_content`
produced a record (not rejected as too short or duplicate), and
`follow_external_links` is enabled; in every other case the pending set is
unchanged. -/
theorem c10_links_only_when_admitted (cfg : CrawlConfig) (md5 : String → String)
    (s : CrawlState) (u : Url) (fetched : Option String) (t : String)
    (links : List Url) :
    (process_url cfg md5 s u fetched t links).urls_to_visit = s.urls_to_visit ∨
    (cfg.followExternalLinks = true ∧ is_code_url cfg u = false ∧
      (parse_content cfg md5 { s with visited_urls := insert u s.visited_urls }
        u t).1.isSome = true) := by
  by_cases hv : u ∈ s.visited_urls
  · left
    rw [process_url, if_pos hv]
  · rw [process_url, if_neg hv]
    rcases handle_fetched_shape cfg md5
        { s with visited_urls := insert u s.visited_urls } u fetched t links _ rfl
      with h | h | h
    · exact Or.inl h.2.2.2
    · obtain ⟨ext, c, n, _, _, _, hp⟩ := h
      exact Or.inl hp
    · obtain ⟨_, _, _, _, hcode, hsome, hp⟩ := h
      rcases hp with hp | hp
      · exact Or.inl hp
      · exact Or.inr ⟨hp.1, hcode, hsome⟩

/-- In every reachable state the visited set and the pending set are
disjoint. -/
lemma reachable_disjoint (cfg : CrawlConfig) (md5 : String → String)
    (seeds : Finset Url) (s : CrawlState) (h : Reachable cfg md5 seeds s) :
    Disjoint s.visited_urls s.urls_to_visit := by
  induction h with
  | init => simp [initState]
  | step s s' _ hs ih =>
    cases hs with
    | dequeue u hu =>
      rw [Finset.disjoint_left] at ih ⊢
      intro a ha hp
      have ha' : a ∈ insert u s.visited_urls := ha
      have hp' : a ∈ s.urls_to_visit.erase u := hp
      rcases Finset.mem_insert.mp ha' with rfl | ha2
      · exact Finset.not_mem_erase a _ hp'
      · exact ih ha2 (Finset.mem_of_mem_erase hp')
    | handle u hu fetched t links =>
      rcases handle_fetched_shape cfg md5 s u fetched t links _ rfl
        with hsh | hsh | hsh
      · rw [hsh.2.2.1, hsh.2.2.2]
        exact ih
      · obtain ⟨ext, c, n, _, _, hv, hp⟩ := hsh
        rw [hv, hp]
        exact ih
      · obtain ⟨_, _, _, hv, _, _, hp⟩ := hsh
        rcases hp with hp | hp
        · rw [hv, hp]
          exact ih
        · rw [hv, hp.2, Finset.disjoint_left]
          intro a ha hp2
          rcases mem_add_new_links cfg s.visited_urls links s.urls_to_visit a hp2
            with h2 | h2
          · exact (Finset.disjoint_left.mp ih) ha h2
          · exact h2.2.1 ha

/-- Claim C4: from any reachable state, the visited and pending sets are
disjoint (before and after any step), the visited set only grows, and any URL
newly added to the visited set by a step was pending in the pre-state — i.e.
a URL enters `visited` exactly at the moment it is dequeued, whether or not
the fetch later succeeds, and being removed from pending for good it can
never be dequeued (hence visited) a second time. -/
theorem c4_frontier_invariants (cfg : CrawlConfig) (md5 : String → String)
    (seeds : Finset Url) (s s' : CrawlState) (h : Reachable cfg md5 seeds s)
    (hs : Step cfg md5 s s') :
    Disjoint s.visited_urls s.urls_to_visit ∧
    Disjoint s'.visited_urls s'.urls_to_visit ∧
    s.visited_urls ⊆ s'.visited_urls ∧
    s'.visited_urls \ s.visited_urls ⊆ s.urls_to_visit := by
  refine ⟨reachable_disjoint cfg md5 seeds s h,
    reachable_disjoint cfg md5 seeds s' (Reachable.step s s' h hs), ?_⟩
  cases hs with
  | dequeue u hu =>
    constructor
    · intro a ha
      exact Finset.mem_insert_of_mem ha
    · intro a ha
      rw [Finset.mem_sdiff] at ha
      have ha1 : a ∈ insert u s.visited_urls := ha.1
      rcases Finset.mem_insert.mp ha1 with rfl | h2
      · exact hu
      · exact absurd h2 ha.2
  | handle u hu fetched t links =>
    have hv : (handle_fetched cfg md5 s u fetched t links).visited_urls =
        s.visited_urls := by
      rcases handle_fetched_shape cfg md5 s u fetched t links _ rfl
        with hsh | hsh | hsh
      · exact hsh.2.2.1
      · obtain ⟨ext, c, n, _, _, hv, _⟩ := hsh
        exact hv
      · exact hsh.2.2.2.1
    rw [hv]
    exact ⟨subset_rfl, by simp⟩

/-- Claim C4 witness: the invariants at the initial state seeded with one URL
and the step that dequeues it. -/
theorem c4_frontier_invariants_witness :
    Disjoint (initState {urlA} []).visited_urls (initState {urlA} []).urls_to_visit ∧
    Disjoint ({ initState {urlA} [] with
        urls_to_visit := (initState {urlA} []).urls_to_visit.erase urlA
        visited_urls := insert urlA (initState {urlA} []).visited_urls } :
          CrawlState).visited_urls
      ({ initState {urlA} [] with
        urls_to_visit := (initState {urlA} []).urls_to_visit.erase urlA
        visited_urls := insert urlA (initState {urlA} []).visited_urls } :
          CrawlState).urls_to_visit ∧
    (initState {urlA} []).visited_urls ⊆ insert urlA (initState {urlA} []).visited_urls ∧
    insert urlA (initState {urlA} []).visited_urls \ (initState {urlA} []).visited_urls ⊆
      (initState {urlA} []).urls_to_visit :=
  c4_frontier_invariants cfgDedup id {urlA} _ _ Reachable.init
    (Step.dequeue (initState {urlA} []) urlA (by decide))

/-- Duplicate-suppression invariant: the fingerprints of the webpage records
written so far are pairwise distinct and all remembered in the in-memory
fingerprint set. -/
def DedupInv (md5 : String → String) (s : CrawlState) : Prop :=
  (webpageFingerprints md5 s).Nodup ∧
  ∀ h ∈ webpageFingerprints md5 s, h ∈ s.content_hashes

/-- Invariant `DedupInv` only depends on the record log and the fingerprint set. -/
lemma dedupInv_of_eq (md5 : String → String) (s s' : CrawlState)
    (hrec : s'.records = s.records) (hh : s'.content_hashes = s.content_hashes)
    (h : DedupInv md5 s) : DedupInv md5 s' := by
  unfold DedupInv webpageFingerprints at h ⊢
  rw [hrec, hh]
  exact h

/-- Appending a code record preserves the duplicate-suppression invariant:
code records carry no fingerprint. -/
lemma dedupInv_append_code (md5 : String → String) (s s' : CrawlState)
    (u : Url) (ext c : String) (n : Nat)
    (hrec : s'.records = s.records ++ [Record.code u ext c n])
    (hh : s'.content_hashes = s.content_hashes)
    (h : DedupInv md5 s) : DedupInv md5 s' := by
  unfold DedupInv webpageFingerprints at h ⊢
  rw [hrec, hh, List.filterMap_append]
  simpa [Record.fingerprintWith] using h

/-- Appending a webpage record whose fingerprint was fresh, while adding the
fingerprint to the set, preserves the duplicate-suppression invariant. -/
lemma dedupInv_append_webpage (md5 : String → String) (s s' : CrawlState)
    (u : Url) (t : String) (n : Nat)
    (hrec : s'.records = s.records ++ [Record.webpage u t n])
    (hsub : s.content_hashes ⊆ s'.content_hashes)
    (hmem : md5 t ∈ s'.content_hashes)
    (hnew : md5 t ∉ s.content_hashes)
    (h : DedupInv md5 s) : DedupInv md5 s' := by
  obtain ⟨h1, h2⟩ := h
  unfold webpageFingerprints at h1 h2
  unfold DedupInv webpageFingerprints
  rw [hrec, List.filterMap_append]
  constructor
  · rw [List.nodup_append]
    refine ⟨h1, by simp [Record.fingerprintWith], ?_⟩
    intro x hx hx'
    simp [Record.fingerprintWith] at hx'
    subst hx'
    exact hnew (h2 _ hx)
  · intro x hx
    rcases List.mem_append.mp hx with hx | hx
    · exact hsub (h2 _ hx)
    · simp [Record.fingerprintWith] at hx
      subst hx
      exact hmem

/-- One step preserves the duplicate-suppression invariant when duplicate
removal is configured on. -/
lemma dedupInv_step (cfg : CrawlConfig) (md5 : String → String)
    (hdup : cfg.removeDuplicates = true) (s s' : CrawlState)
    (hs : Step cfg md5 s s') (h : DedupInv md5 s) : DedupInv md5 s' := by
  cases hs with
  | dequeue u hu => exact dedupInv_of_eq md5 s _ rfl rfl h
  | handle u hu fetched t links =>
    rcases handle_fetched_shape cfg md5 s u fetched t links _ rfl
      with hsh | hsh | hsh
    · exact dedupInv_of_eq md5 s _ hsh.1 hsh.2.1 h
    · obtain ⟨ext, c, n, hrec, hh, _, _⟩ := hsh
      exact dedupInv_append_code md5 s _ u ext c n hrec hh h
    · obtain ⟨hrec, hdups, _, _, _, _, _⟩ := hsh
      obtain ⟨hnew, hh⟩ := hdups hdup
      refine dedupInv_append_webpage md5 s _ u t t.utf8ByteSize hrec ?_ ?_ hnew h
      · rw [hh]
        exact Finset.subset_insert _ _
      · rw [hh]
        exact Finset.mem_insert_self _ _

/-- The duplicate-suppression invariant holds in every reachable state when
duplicate removal is configured on. -/
lemma dedupInv_reachable (cfg : CrawlConfig) (md5 : String → String)
    (seeds : Finset Url) (s : CrawlState) (hdup : cfg.removeDuplicates = true)
    (h : Reachable cfg md5 seeds s) : DedupInv md5 s := by
  induction h with
  | init => exact ⟨by simp [webpageFingerprints, initState], by
      simp [webpageFingerprints, initState]⟩
  | step s s' _ hs ih => exact dedupInv_step cfg md5 hdup s s' hs ih

/-- Claim C2 (amended): the fingerprint set is maintained in memory for the
lifetime of the run, and within a single run no two webpage records in the
log share a content fingerprint; but `load_checkpoint` does not restore the
fingerprint set (the checkpoint does not contain it), so on resume it is
whatever the fresh collector started with — empty. -/
theorem c2_dedup_within_run :
    (∀ (base : CrawlState) (cp : Checkpoint),
      (load_checkpoint base cp).content_hashes = base.content_hashes) ∧
    (∀ (cfg : CrawlConfig) (md5 : String → String) (seeds : Finset Url)
      (s : CrawlState), cfg.removeDuplicates = true →
      Reachable cfg md5 seeds s → (webpageFingerprints md5 s).Nodup) :=
  ⟨fun _ _ => rfl,
   fun cfg md5 seeds s hdup hr => (dedupInv_reachable cfg md5 seeds s hdup hr).1⟩

/-- Claim C2 (amended) witness: the load-does-not-touch-fingerprints equation
and the within-run distinctness at concrete instances. -/
theorem c2_dedup_within_run_witness :
    (load_checkpoint (initState {urlA} [])
      (save_checkpoint (initState {urlA} []))).content_hashes =
      (initState {urlA} []).content_hashes ∧
    (webpageFingerprints id (initState {urlA} [])).Nodup :=
  ⟨c2_dedup_within_run.1 (initState {urlA} []) (save_checkpoint (initState {urlA} [])),
   c2_dedup_within_run.2 cfgDedup id {urlA} (initState {urlA} []) rfl Reachable.init⟩

/-- First run of the duplicate-suppression scenario: the seed webpage with
cleaned text "hello" is fetched and its record admitted (`md5` instantiated
with the identity, so the fingerprint of "hello" is "hello"). -/
def runC2 : CrawlState :=
  process_url cfgDedup id (initState {urlA} []) urlA (some "page") "hello" []

/-- The resumed collector: a fresh collector (empty in-memory fingerprint
set; the append-only data file persists on disk) after loading the
checkpoint saved at the end of the first run. -/
def resumedC2 : CrawlState :=
  load_checkpoint (initState {urlA} runC2.records) (save_checkpoint runC2)

/-- The resumed run processes a different URL whose page has identical
cleaned text. -/
def resumedRunC2 : CrawlState :=
  process_url cfgDedup id resumedC2 urlB (some "page") "hello" []

/-- Claim C2 counterexample: the fingerprint set is NOT restored from the
checkpoint on resume — after `load_checkpoint` it is empty although the saved
run had recorded the fingerprint "hello" — and consequently the resumed run
admits a second webpage record with the same fingerprint, so two records in
the log share a content fingerprint across a resumed run. -/
theorem c2_counterexample :
    runC2.content_hashes = {"hello"} ∧
    resumedC2.content_hashes = ∅ ∧
    webpageFingerprints id resumedRunC2 = ["hello", "hello"] ∧
    ¬ (webpageFingerprints id resumedRunC2).Nodup := by
  have hv : resumedC2.visited_urls = {urlA} := by
    show ((save_checkpoint runC2).visited_urls).toFinset = {urlA}
    simp only [save_checkpoint, urlList]
    rw [Finset.sort_toFinset]
    decide
  have hnm : urlB ∉ resumedC2.visited_urls := by
    rw [hv]
    decide
  have hrun : resumedRunC2.records =
      resumedC2.records ++ [Record.webpage urlB "hello" 5] := by
    rw [resumedRunC2, process_url, if_neg hnm]
    rfl
  have hfp : webpageFingerprints id resumedRunC2 = ["hello", "hello"] := by
    rw [webpageFingerprints, hrun]
    decide
  refine ⟨by decide, rfl, hfp, ?_⟩
  rw [hfp]
  decide

end Crawler
